import Mathlib

/-!
Shallow embedding of the id-addressable binary min-heap of
`src/TD6/heap_id.hpp` (template class `Heap_Id<Element>`).

Modelling conventions:
* `Element` values are drawn from an arbitrary linear order `α`
  (the header requires `operator<` / `operator<=` only); the stored
  `std::pair<Element*, unsigned int>` node is modelled as `α × Nat`
  (the pointed-to value together with the id field `second`).
* The three backing arrays (`elements`, `id_to_pos`, `id_free`) are
  allocated with `new[]` and never initialised by the constructor, so a
  fresh heap's array contents are indeterminate: the constructor takes
  the initial (junk) contents as explicit parameters and the arrays are
  modelled as total functions `Nat → _` (a C out-of-bounds write simply
  lands at that function index).
* `unsigned int` arithmetic wraps at `W = 2 ^ 32`.  The wrap is written
  out explicitly at the one program point where it is reachable from the
  public API, namely `nb_elem - 1` inside `pop` (reachable with
  `nb_elem = 0`, since `pop` has no emptiness guard).  Index arithmetic
  (`2*i+1`, `2*i+2`, `(i-1)/2`, `nb_elem + 1`) is kept on `Nat`: for it
  to wrap a single heap would need `2^31` live slots, which no claim
  exercises.  In the guard `get_pos_left_son pos = nb_elem - 1` of
  `lower`, Nat subtraction and unsigned subtraction differ only when
  `nb_elem = 0`, a combination the embedded code never produces
  (`pop` calls `lower` only when `2 < nb_elem` holds after the
  decrement).
* `assert` statements are diagnostics and are not part of the modelled
  state transformation.
* In the C++ source, `push` is declared `unsigned int push(Element&)`
  but its body contains no return statement, and `pop` is declared
  `Element& pop()` and returns (the element of) the captured root node;
  the embedding therefore has `push` return only the new state, and
  `pop` return the root element together with the new state.
-/

/-- Modulus of `unsigned int` arithmetic. -/
def W : Nat := 4294967296

/-- The state of a `Heap_Id<Element>` object: the public `capacity`
field, the `elements` node array, the live count `nb_elem`, and the two
auxiliary id arrays. -/
@[ext]
structure Heap_Id (α : Type) where
  capacity : Nat
  elements : Nat → α × Nat
  nb_elem : Nat
  id_to_pos : Nat → Nat
  id_free : Nat → Nat

variable {α : Type} [LinearOrder α]

/-- Member `is_empty`: `nb_elem == 0`. -/
def Heap_Id.is_empty (h : Heap_Id α) : Bool :=
  h.nb_elem == 0

/-- Member `lt(pos_1, pos_2)`: value at `pos_1` strictly below value at
`pos_2`. -/
def Heap_Id.lt (h : Heap_Id α) (pos_1 pos_2 : Nat) : Bool :=
  decide ((h.elements pos_1).1 < (h.elements pos_2).1)

/-- Member `le(pos_1, pos_2)`: value at `pos_1` at most value at
`pos_2`. -/
def Heap_Id.le (h : Heap_Id α) (pos_1 pos_2 : Nat) : Bool :=
  decide ((h.elements pos_1).1 ≤ (h.elements pos_2).1)

/-- Member `get_pos_left_son`: `2*i+1`. -/
def get_pos_left_son (i : Nat) : Nat := 2 * i + 1

/-- Member `get_pos_right_son`: `2*i+2`. -/
def get_pos_right_son (i : Nat) : Nat := 2 * i + 2

/-- Member `get_pos_father`: `(i-1)/2`. -/
def get_pos_father (i : Nat) : Nat := (i - 1) / 2

/-- Member `swap(pos_a, pos_b)`: exchanges the two nodes of the
`elements` array and touches nothing else (in particular it leaves
`id_to_pos` alone). -/
def Heap_Id.swap (h : Heap_Id α) (pos_a pos_b : Nat) : Heap_Id α :=
  { h with elements := fun i =>
      if i = pos_b then h.elements pos_a
      else if i = pos_a then h.elements pos_b
      else h.elements i }

/-- Member `lower(pos)`: the `while` loop runs as long as both son
indices are below `nb_elem` and the node at `pos` is greater than one of
its sons; it swaps with the left son when `le(left, right)` holds and
with the right son otherwise.  After the loop, one trailing `if` swaps
with a lone left son sitting at index `nb_elem - 1` when that son is
strictly smaller. -/
def Heap_Id.lower (h : Heap_Id α) (pos : Nat) : Heap_Id α :=
  if get_pos_right_son pos < h.nb_elem ∧ get_pos_left_son pos < h.nb_elem ∧
      ((h.elements (get_pos_left_son pos)).1 < (h.elements pos).1 ∨
        (h.elements (get_pos_right_son pos)).1 < (h.elements pos).1) then
    if h.le (get_pos_left_son pos) (get_pos_right_son pos) then
      Heap_Id.lower (h.swap pos (get_pos_left_son pos)) (get_pos_left_son pos)
    else
      Heap_Id.lower (h.swap pos (get_pos_right_son pos)) (get_pos_right_son pos)
  else if get_pos_left_son pos = h.nb_elem - 1 ∧ h.lt (get_pos_left_son pos) pos then
    h.swap pos (get_pos_left_son pos)
  else
    h
termination_by h.nb_elem - pos
decreasing_by
  all_goals
    simp only [Heap_Id.swap, get_pos_left_son, get_pos_right_son] at *
    omega

/-- Member `raise(pos)`: while `pos > 0` and the node at `pos` is
strictly below its father, swap with the father and continue from the
father. -/
def Heap_Id.raise (h : Heap_Id α) (pos : Nat) : Heap_Id α :=
  if 0 < pos ∧ (h.elements pos).1 < (h.elements (get_pos_father pos)).1 then
    Heap_Id.raise (h.swap pos (get_pos_father pos)) (get_pos_father pos)
  else
    h
termination_by pos
decreasing_by
  simp only [get_pos_father] at *
  omega

/-- Member `push(v)`: writes the node `(v, nb_elem)` at index `nb_elem`
(out of bounds when the heap is full: the source performs no capacity
check), raises it when the heap was not empty, and increments
`nb_elem`.  It never reads `id_free`, never writes `id_to_pos`, and
(despite its declared `unsigned int` return type) returns nothing. -/
def Heap_Id.push (h : Heap_Id α) (v : α) : Heap_Id α :=
  if h.is_empty then
    { h with
      elements := fun i => if i = h.nb_elem then (v, h.nb_elem) else h.elements i,
      nb_elem := h.nb_elem + 1 }
  else
    let h1 : Heap_Id α :=
      { h with
        elements := fun i => if i = h.nb_elem then (v, h.nb_elem) else h.elements i }
    let h2 := h1.raise h.nb_elem
    { h2 with nb_elem := h2.nb_elem + 1 }

/-- Member `pop()`: captures the root node, overwrites the root with the
node at `nb_elem - 1` (unsigned arithmetic: on an empty heap this index
is `2^32 - 1`), decrements `nb_elem` (wrapping to `2^32 - 1` on an empty
heap), calls `lower(0)` only when `nb_elem > 2` holds after the
decrement, and returns the captured element.  The removed id is never
handed back to `id_free`. -/
def Heap_Id.pop (h : Heap_Id α) : α × Heap_Id α :=
  let min := h.elements 0
  let lastIdx := (h.nb_elem + (W - 1)) % W
  let h1 : Heap_Id α :=
    { h with
      elements := fun i => if i = 0 then h.elements lastIdx else h.elements i,
      nb_elem := lastIdx }
  let h2 := if 2 < h1.nb_elem then h1.lower 0 else h1
  (min.1, h2)

/-- Member `reposition(id)`: the body in the source is empty (`TODO`),
so the call is the identity on the heap state and signals nothing. -/
def Heap_Id.reposition (h : Heap_Id α) (id : Nat) : Heap_Id α :=
  h

/-- Constructor `Heap_Id(_capacity)`: sets `capacity`, allocates the
three arrays with `new[]` without initialising them (their junk contents
are the last three parameters), and sets `nb_elem = 0`.  No capacity
value is rejected. -/
def Heap_Id.new (_capacity : Nat) (mem_elements : Nat → α × Nat)
    (mem_id_to_pos mem_id_free : Nat → Nat) : Heap_Id α :=
  { capacity := _capacity
    elements := mem_elements
    nb_elem := 0
    id_to_pos := mem_id_to_pos
    id_free := mem_id_free }

/-- Spec-side predicate (from the spec, section 3, for comparison with
the code): heap order, `value(parent(i)) ≤ value(i)` for every live
index `i > 0`. -/
def heapOrdered (h : Heap_Id α) : Prop :=
  ∀ i, i < h.nb_elem → 0 < i → (h.elements ((i - 1) / 2)).1 ≤ (h.elements i).1

/-- Spec-side predicate (from the spec, section 3, for comparison with
the code): index consistency.  With the live ids read off the live
slots, the stated invariant (every live id `k` has `posOf[k]` live with
`slots[posOf[k]].id = k`, and every live slot's id maps back to it) is
equivalent to: the id stored at each live slot maps back to that
slot. -/
def indexConsistent (h : Heap_Id α) : Prop :=
  ∀ i, i < h.nb_elem → h.id_to_pos ((h.elements i).2) = i

instance (h : Heap_Id α) : Decidable (heapOrdered h) := by
  unfold heapOrdered
  infer_instance

instance (h : Heap_Id α) : Decidable (indexConsistent h) := by
  unfold indexConsistent
  infer_instance

/-! Concrete states used to exercise the code, all with `Nat` elements.
The junk functions stand for the uninitialised contents of the arrays
allocated with `new[]` by the constructor. -/

/-- Junk contents (all zero) for an uninitialised id array. -/
def zf : Nat → Nat := fun _ => 0

/-- Junk contents (all zero nodes) for an uninitialised node array. -/
def jel : Nat → Nat × Nat := fun _ => (0, 0)

/-- Junk contents (all 7) for an uninitialised id array. -/
def sevens : Nat → Nat := fun _ => 7

/-- Junk contents (all `(9, 9)` nodes) for an uninitialised node
array. -/
def jel9 : Nat → Nat × Nat := fun _ => (9, 9)

/-- Run A, step 1: push 1 into a fresh capacity-3 heap. -/
def hA1 : Heap_Id Nat := (Heap_Id.new 3 jel zf zf).push 1

/-- Run A, step 2: push 2. -/
def hA2 : Heap_Id Nat := hA1.push 2

/-- Run A, step 3: push 3. -/
def hA3 : Heap_Id Nat := hA2.push 3

/-- Node array of run A after push 1. -/
def eA1 : Nat → Nat × Nat := fun i => if i = 0 then (1, 0) else jel i

/-- Node array of run A after push 1, push 2. -/
def eA2 : Nat → Nat × Nat := fun i => if i = 1 then (2, 1) else eA1 i

/-- Node array of run A after push 1, push 2, push 3. -/
def eA3 : Nat → Nat × Nat := fun i => if i = 2 then (3, 2) else eA2 i

/-- Run A state after push 1, written out. -/
def LA1 : Heap_Id Nat := ⟨3, eA1, 1, zf, zf⟩

/-- Run A state after push 1, push 2, written out. -/
def LA2 : Heap_Id Nat := ⟨3, eA2, 2, zf, zf⟩

/-- Run A state after push 1, push 2, push 3, written out. -/
def LA3 : Heap_Id Nat := ⟨3, eA3, 3, zf, zf⟩

/-- Node array of run A after the first pop. -/
def eA4 : Nat → Nat × Nat := fun i => if i = 0 then (3, 2) else eA3 i

/-- Run A state after the first pop, written out. -/
def LA4 : Heap_Id Nat := ⟨3, eA4, 2, zf, zf⟩

/-- Node array of run A after the second pop. -/
def eA5 : Nat → Nat × Nat := fun i => if i = 0 then (2, 1) else eA4 i

/-- Run A state after the second pop, written out. -/
def LA5 : Heap_Id Nat := ⟨3, eA5, 1, zf, zf⟩

/-- Run B, step 1: push 2 into a fresh capacity-2 heap. -/
def hB1 : Heap_Id Nat := (Heap_Id.new 2 jel zf zf).push 2

/-- Run B, step 2: push 1, which raises past the slot of id 0. -/
def hB2 : Heap_Id Nat := hB1.push 1

/-- Node array of run B after push 2. -/
def eB1 : Nat → Nat × Nat := fun i => if i = 0 then (2, 0) else jel i

/-- Node array of run B after push 2, push 1 (one `raise` swap). -/
def eB2 : Nat → Nat × Nat :=
  fun i => if i = 0 then (1, 1) else if i = 1 then (2, 0) else eB1 i

/-- Run B state after push 2, written out. -/
def LB1 : Heap_Id Nat := ⟨2, eB1, 1, zf, zf⟩

/-- Run B state after push 2, push 1, written out. -/
def LB2 : Heap_Id Nat := ⟨2, eB2, 2, zf, zf⟩

/-- Run C: push 1, push 2, pop, then a third push. -/
def hC10 : Heap_Id Nat := (hA2.pop).2.push 3

/-- Node array of run C after push 1, push 2, pop. -/
def eC1 : Nat → Nat × Nat := fun i => if i = 0 then (2, 1) else eA2 i

/-- Run C state after push 1, push 2, pop, written out. -/
def LC1 : Heap_Id Nat := ⟨3, eC1, 1, zf, zf⟩

/-- Node array of run C after the third push (id 1 is reissued). -/
def eC2 : Nat → Nat × Nat := fun i => if i = 1 then (3, 1) else eC1 i

/-- Run C state after the third push, written out. -/
def LC2 : Heap_Id Nat := ⟨3, eC2, 2, zf, zf⟩

/-- Run D, step 1: push 5 into a fresh capacity-2 heap. -/
def hD1 : Heap_Id Nat := (Heap_Id.new 2 jel zf zf).push 5

/-- Run D, step 2: push 10. -/
def hD2 : Heap_Id Nat := hD1.push 10

/-- Run D, step 3: the caller mutates the value of the live element
with id 1 (stored by reference at slot 1) from 10 down to 0, outside
the heap. -/
def hD2m : Heap_Id Nat :=
  { hD2 with elements := fun i => if i = 1 then (0, 1) else hD2.elements i }

/-- Node array of run D after both pushes. -/
def eD1 : Nat → Nat × Nat := fun i => if i = 0 then (5, 0) else jel i

/-- Node array of run D after both pushes, slot 1 written. -/
def eD2 : Nat → Nat × Nat := fun i => if i = 1 then (10, 1) else eD1 i

/-- Node array of run D after the external mutation. -/
def eD2m : Nat → Nat × Nat := fun i => if i = 1 then (0, 1) else eD2 i

/-- Run D state after both pushes, written out. -/
def LD1 : Heap_Id Nat := ⟨2, eD1, 1, zf, zf⟩

/-- Run D state after both pushes, written out. -/
def LD2 : Heap_Id Nat := ⟨2, eD2, 2, zf, zf⟩

/-- Run D state after the external mutation, written out. -/
def LD2m : Heap_Id Nat := ⟨2, eD2m, 2, zf, zf⟩

/-- Heap for claim C3: fresh capacity-2 heap whose junk `id_to_pos`
memory holds 7 everywhere, then push 5. -/
def hC3 : Heap_Id Nat := (Heap_Id.new 2 jel sevens zf).push 5

/-- Heap for claim C6: capacity 1, filled by one push, then pushed
again past capacity. -/
def hC6 : Heap_Id Nat := ((Heap_Id.new 1 jel zf zf).push 5).push 6

/-- Heap for claim C7: a fresh (empty) capacity-2 heap whose junk node
memory holds `(9, 9)` everywhere. -/
def hC7 : Heap_Id Nat := Heap_Id.new 2 jel9 zf zf

/-- Heap for the C9 witness: two live slots, root 5 with a lone left
son 3. -/
def hW9 : Heap_Id Nat :=
  ⟨2, fun i => if i = 0 then (5, 0) else if i = 1 then (3, 1) else jel i, 2, zf, zf⟩

/-! Frame lemmas: which fields each operation leaves untouched, read
off the source bodies. -/

@[simp]
theorem swap_capacity (h : Heap_Id α) (a b : Nat) : (h.swap a b).capacity = h.capacity := rfl

@[simp]
theorem swap_nb_elem (h : Heap_Id α) (a b : Nat) : (h.swap a b).nb_elem = h.nb_elem := rfl

@[simp]
theorem swap_id_to_pos (h : Heap_Id α) (a b : Nat) : (h.swap a b).id_to_pos = h.id_to_pos := rfl

@[simp]
theorem swap_id_free (h : Heap_Id α) (a b : Nat) : (h.swap a b).id_free = h.id_free := rfl

@[simp]
theorem raise_capacity (h : Heap_Id α) (pos : Nat) : (h.raise pos).capacity = h.capacity := by
  induction h, pos using Heap_Id.raise.induct with
  | case1 h pos hc ih => rw [Heap_Id.raise, if_pos hc]; exact ih
  | case2 h pos hc => rw [Heap_Id.raise, if_neg hc]

@[simp]
theorem raise_nb_elem (h : Heap_Id α) (pos : Nat) : (h.raise pos).nb_elem = h.nb_elem := by
  induction h, pos using Heap_Id.raise.induct with
  | case1 h pos hc ih => rw [Heap_Id.raise, if_pos hc]; exact ih
  | case2 h pos hc => rw [Heap_Id.raise, if_neg hc]

@[simp]
theorem raise_id_to_pos (h : Heap_Id α) (pos : Nat) : (h.raise pos).id_to_pos = h.id_to_pos := by
  induction h, pos using Heap_Id.raise.induct with
  | case1 h pos hc ih => rw [Heap_Id.raise, if_pos hc]; exact ih
  | case2 h pos hc => rw [Heap_Id.raise, if_neg hc]

@[simp]
theorem raise_id_free (h : Heap_Id α) (pos : Nat) : (h.raise pos).id_free = h.id_free := by
  induction h, pos using Heap_Id.raise.induct with
  | case1 h pos hc ih => rw [Heap_Id.raise, if_pos hc]; exact ih
  | case2 h pos hc => rw [Heap_Id.raise, if_neg hc]

@[simp]
theorem lower_capacity (h : Heap_Id α) (pos : Nat) : (h.lower pos).capacity = h.capacity := by
  induction h, pos using Heap_Id.lower.induct with
  | case1 h pos hc hle ih => rw [Heap_Id.lower, if_pos hc, if_pos hle]; exact ih
  | case2 h pos hc hle ih => rw [Heap_Id.lower, if_pos hc, if_neg hle]; exact ih
  | case3 h pos hc ht => rw [Heap_Id.lower, if_neg hc, if_pos ht]; rfl
  | case4 h pos hc ht => rw [Heap_Id.lower, if_neg hc, if_neg ht]

@[simp]
theorem lower_nb_elem (h : Heap_Id α) (pos : Nat) : (h.lower pos).nb_elem = h.nb_elem := by
  induction h, pos using Heap_Id.lower.induct with
  | case1 h pos hc hle ih => rw [Heap_Id.lower, if_pos hc, if_pos hle]; exact ih
  | case2 h pos hc hle ih => rw [Heap_Id.lower, if_pos hc, if_neg hle]; exact ih
  | case3 h pos hc ht => rw [Heap_Id.lower, if_neg hc, if_pos ht]; rfl
  | case4 h pos hc ht => rw [Heap_Id.lower, if_neg hc, if_neg ht]

@[simp]
theorem lower_id_to_pos (h : Heap_Id α) (pos : Nat) : (h.lower pos).id_to_pos = h.id_to_pos := by
  induction h, pos using Heap_Id.lower.induct with
  | case1 h pos hc hle ih => rw [Heap_Id.lower, if_pos hc, if_pos hle]; exact ih
  | case2 h pos hc hle ih => rw [Heap_Id.lower, if_pos hc, if_neg hle]; exact ih
  | case3 h pos hc ht => rw [Heap_Id.lower, if_neg hc, if_pos ht]; rfl
  | case4 h pos hc ht => rw [Heap_Id.lower, if_neg hc, if_neg ht]

@[simp]
theorem lower_id_free (h : Heap_Id α) (pos : Nat) : (h.lower pos).id_free = h.id_free := by
  induction h, pos using Heap_Id.lower.induct with
  | case1 h pos hc hle ih => rw [Heap_Id.lower, if_pos hc, if_pos hle]; exact ih
  | case2 h pos hc hle ih => rw [Heap_Id.lower, if_pos hc, if_neg hle]; exact ih
  | case3 h pos hc ht => rw [Heap_Id.lower, if_neg hc, if_pos ht]; rfl
  | case4 h pos hc ht => rw [Heap_Id.lower, if_neg hc, if_neg ht]

@[simp]
theorem push_nb_elem (h : Heap_Id α) (v : α) : (h.push v).nb_elem = h.nb_elem + 1 := by
  rw [Heap_Id.push]
  split
  · rfl
  · simp only [raise_nb_elem]

@[simp]
theorem push_capacity (h : Heap_Id α) (v : α) : (h.push v).capacity = h.capacity := by
  rw [Heap_Id.push]
  split
  · rfl
  · simp only [raise_capacity]

@[simp]
theorem push_id_to_pos (h : Heap_Id α) (v : α) : (h.push v).id_to_pos = h.id_to_pos := by
  rw [Heap_Id.push]
  split
  · rfl
  · simp only [raise_id_to_pos]

@[simp]
theorem push_id_free (h : Heap_Id α) (v : α) : (h.push v).id_free = h.id_free := by
  rw [Heap_Id.push]
  split
  · rfl
  · simp only [raise_id_free]

@[simp]
theorem pop_nb_elem (h : Heap_Id α) : (h.pop).2.nb_elem = (h.nb_elem + (W - 1)) % W := by
  rw [Heap_Id.pop]
  split
  · simp only [lower_nb_elem]
  · rfl

@[simp]
theorem pop_capacity (h : Heap_Id α) : (h.pop).2.capacity = h.capacity := by
  rw [Heap_Id.pop]
  split
  · simp only [lower_capacity]
  · rfl

@[simp]
theorem pop_id_to_pos (h : Heap_Id α) : (h.pop).2.id_to_pos = h.id_to_pos := by
  rw [Heap_Id.pop]
  split
  · simp only [lower_id_to_pos]
  · rfl

@[simp]
theorem pop_id_free (h : Heap_Id α) : (h.pop).2.id_free = h.id_free := by
  rw [Heap_Id.pop]
  split
  · simp only [lower_id_free]
  · rfl

/-! Step lemmas: one unfolding of the loops of `raise` and `lower`,
selected by the loop conditions. -/

theorem raise_step (h : Heap_Id α) (pos : Nat)
    (hc : 0 < pos ∧ (h.elements pos).1 < (h.elements (get_pos_father pos)).1) :
    h.raise pos = (h.swap pos (get_pos_father pos)).raise (get_pos_father pos) := by
  rw [Heap_Id.raise, if_pos hc]

theorem raise_stop (h : Heap_Id α) (pos : Nat)
    (hc : ¬(0 < pos ∧ (h.elements pos).1 < (h.elements (get_pos_father pos)).1)) :
    h.raise pos = h := by
  rw [Heap_Id.raise, if_neg hc]

theorem lower_step_left (h : Heap_Id α) (pos : Nat)
    (hc : get_pos_right_son pos < h.nb_elem ∧ get_pos_left_son pos < h.nb_elem ∧
      ((h.elements (get_pos_left_son pos)).1 < (h.elements pos).1 ∨
        (h.elements (get_pos_right_son pos)).1 < (h.elements pos).1))
    (hle : h.le (get_pos_left_son pos) (get_pos_right_son pos)) :
    h.lower pos = (h.swap pos (get_pos_left_son pos)).lower (get_pos_left_son pos) := by
  rw [Heap_Id.lower, if_pos hc, if_pos hle]

theorem lower_step_right (h : Heap_Id α) (pos : Nat)
    (hc : get_pos_right_son pos < h.nb_elem ∧ get_pos_left_son pos < h.nb_elem ∧
      ((h.elements (get_pos_left_son pos)).1 < (h.elements pos).1 ∨
        (h.elements (get_pos_right_son pos)).1 < (h.elements pos).1))
    (hle : ¬ h.le (get_pos_left_son pos) (get_pos_right_son pos)) :
    h.lower pos = (h.swap pos (get_pos_right_son pos)).lower (get_pos_right_son pos) := by
  rw [Heap_Id.lower, if_pos hc, if_neg hle]

theorem lower_tail_swap (h : Heap_Id α) (pos : Nat)
    (hc : ¬(get_pos_right_son pos < h.nb_elem ∧ get_pos_left_son pos < h.nb_elem ∧
      ((h.elements (get_pos_left_son pos)).1 < (h.elements pos).1 ∨
        (h.elements (get_pos_right_son pos)).1 < (h.elements pos).1)))
    (ht : get_pos_left_son pos = h.nb_elem - 1 ∧ h.lt (get_pos_left_son pos) pos) :
    h.lower pos = h.swap pos (get_pos_left_son pos) := by
  rw [Heap_Id.lower, if_neg hc, if_pos ht]

theorem lower_stop (h : Heap_Id α) (pos : Nat)
    (hc : ¬(get_pos_right_son pos < h.nb_elem ∧ get_pos_left_son pos < h.nb_elem ∧
      ((h.elements (get_pos_left_son pos)).1 < (h.elements pos).1 ∨
        (h.elements (get_pos_right_son pos)).1 < (h.elements pos).1)))
    (ht : ¬(get_pos_left_son pos = h.nb_elem - 1 ∧ h.lt (get_pos_left_son pos) pos)) :
    h.lower pos = h := by
  rw [Heap_Id.lower, if_neg hc, if_neg ht]

/-- Every position `lower` ever swaps lies at or below (in index order)
its starting position: slots with index strictly below the start are
left untouched. -/
theorem lower_elements_below (h : Heap_Id α) (pos : Nat) :
    ∀ j, j < pos → (h.lower pos).elements j = h.elements j := by
  induction h, pos using Heap_Id.lower.induct with
  | case1 h pos hc hle ih =>
    intro j hj
    rw [lower_step_left h pos hc hle]
    rw [ih j (by simp only [get_pos_left_son]; omega)]
    simp only [Heap_Id.swap, get_pos_left_son]
    rw [if_neg (by omega), if_neg (by omega)]
  | case2 h pos hc hle ih =>
    intro j hj
    rw [lower_step_right h pos hc hle]
    rw [ih j (by simp only [get_pos_right_son]; omega)]
    simp only [Heap_Id.swap, get_pos_right_son]
    rw [if_neg (by omega), if_neg (by omega)]
  | case3 h pos hc ht =>
    intro j hj
    rw [lower_tail_swap h pos hc ht]
    simp only [Heap_Id.swap, get_pos_left_son]
    rw [if_neg (by omega), if_neg (by omega)]
  | case4 h pos hc ht =>
    intro j _
    rw [lower_stop h pos hc ht]

/-- The node sitting at the raised position ends up at some ancestor
position (at or above the start). -/
theorem raise_moves_up (h : Heap_Id α) (pos : Nat) :
    ∃ j, j ≤ pos ∧ (h.raise pos).elements j = h.elements pos := by
  induction h, pos using Heap_Id.raise.induct with
  | case1 h pos hc ih =>
    rw [raise_step h pos hc]
    obtain ⟨j, hj, hje⟩ := ih
    refine ⟨j, le_trans hj (by simp only [get_pos_father]; omega), ?_⟩
    rw [hje]
    simp [Heap_Id.swap]
  | case2 h pos hc =>
    exact ⟨pos, le_refl _, by rw [raise_stop h pos hc]⟩

/-! Evaluation lemmas: closed forms for `push` and `pop` in the
situations the concrete runs exercise. -/

/-- Evaluation of `push` on a non-empty heap when the new value does
not beat its father: `raise` stops immediately. -/
theorem push_eval_no_raise (h : Heap_Id α) (v : α) (hne : h.nb_elem ≠ 0)
    (hge : ¬ v < (h.elements (get_pos_father h.nb_elem)).1) :
    h.push v = { h with
      elements := fun i => if i = h.nb_elem then (v, h.nb_elem) else h.elements i,
      nb_elem := h.nb_elem + 1 } := by
  have hf : get_pos_father h.nb_elem ≠ h.nb_elem := by
    simp only [get_pos_father]; omega
  rw [Heap_Id.push, if_neg (by simpa [Heap_Id.is_empty] using hne)]
  dsimp only
  rw [raise_stop _ _ (by simp [hf]; intro _; simpa using hge)]

/-- Evaluation of `push` on a non-empty heap whose insertion slot is a
son of the root and whose value beats the root: `raise` performs
exactly one swap. -/
theorem push_eval_one_raise (h : Heap_Id α) (v : α) (hne : h.nb_elem ≠ 0)
    (hf0 : get_pos_father h.nb_elem = 0)
    (hlt : v < (h.elements 0).1) :
    h.push v = { h with
      elements := fun i =>
        if i = 0 then (v, h.nb_elem)
        else if i = h.nb_elem then h.elements 0
        else h.elements i,
      nb_elem := h.nb_elem + 1 } := by
  have hne0 : (0 : Nat) ≠ h.nb_elem := fun hh => hne hh.symm
  rw [Heap_Id.push, if_neg (by simpa [Heap_Id.is_empty] using hne)]
  dsimp only
  rw [raise_step _ _ (by
    simp only [hf0]
    refine ⟨Nat.pos_of_ne_zero hne, ?_⟩
    simpa [hne0] using hlt)]
  rw [hf0]
  rw [raise_stop _ _ (by simp)]
  apply Heap_Id.ext
  · rfl
  · funext i
    simp only [Heap_Id.swap]
    by_cases h0 : i = 0 <;> by_cases hi : i = h.nb_elem <;>
      simp [h0, hi, hne, hne0]
  · simp [Heap_Id.swap]
  · rfl
  · rfl

/-- Evaluation of `pop` on a heap with 1, 2 or 3 live slots: the guard
`nb_elem > 2` (checked after the decrement) is false, so `lower` is
never entered. -/
theorem pop_eval_small (h : Heap_Id α) (hn : 0 < h.nb_elem) (hn3 : h.nb_elem ≤ 3) :
    h.pop = ((h.elements 0).1,
      { h with
        elements := fun i => if i = 0 then h.elements (h.nb_elem - 1) else h.elements i,
        nb_elem := h.nb_elem - 1 }) := by
  have hlast : (h.nb_elem + (W - 1)) % W = h.nb_elem - 1 := by
    simp only [W]; omega
  rw [Heap_Id.pop]
  dsimp only
  rw [hlast, if_neg (by omega)]

/-! Closed forms of the concrete runs. -/

/-- Run A after push 1. -/
theorem hA1_eq : hA1 = LA1 := rfl

/-- Run A after push 1, push 2. -/
theorem hA2_eq : hA2 = LA2 := by
  show hA1.push 2 = LA2
  rw [hA1_eq, push_eval_no_raise _ _ (by decide) (by decide)]
  rfl

/-- Run A after push 1, push 2, push 3. -/
theorem hA3_eq : hA3 = LA3 := by
  show hA2.push 3 = LA3
  rw [hA2_eq, push_eval_no_raise _ _ (by decide) (by decide)]
  rfl

/-- Run A: the first pop returns 1 and leaves the slot array [3, 2]
without lowering (the source only lowers when more than 2 elements
remain). -/
theorem popA1_eq : LA3.pop = (1, LA4) := by
  rw [pop_eval_small _ (by decide) (by decide)]
  rfl

/-- Run A: the second pop returns the 3 that was left at the root. -/
theorem popA2_eq : LA4.pop = (3, LA5) := by
  rw [pop_eval_small _ (by decide) (by decide)]
  rfl

/-- Run C: pop after push 1, push 2. -/
theorem popC1_eq : LA2.pop = (1, LC1) := by
  rw [pop_eval_small _ (by decide) (by decide)]
  rfl

/-- Run C: the third push stamps id `nb_elem = 1` again. -/
theorem hC10_eq : hC10 = LC2 := by
  show (hA2.pop).2.push 3 = LC2
  rw [hA2_eq, popC1_eq]
  show LC1.push 3 = LC2
  rw [push_eval_no_raise _ _ (by decide) (by decide)]
  rfl

/-- Run B after push 2. -/
theorem hB1_eq : hB1 = LB1 := rfl

/-- Run B after push 2, push 1: the raise swap moves id 1 to slot 0
and id 0 to slot 1. -/
theorem hB2_eq : hB2 = LB2 := by
  show hB1.push 1 = LB2
  rw [hB1_eq, push_eval_one_raise _ _ (by decide) (by decide) (by decide)]
  rfl

/-- Run D after push 5. -/
theorem hD1_eq : hD1 = LD1 := rfl

/-- Run D after push 5, push 10. -/
theorem hD2_eq : hD2 = LD2 := by
  show hD1.push 10 = LD2
  rw [hD1_eq, push_eval_no_raise _ _ (by decide) (by decide)]
  rfl

/-- Run D after the external mutation of the value of id 1. -/
theorem hD2m_eq : hD2m = LD2m := by
  show ({ hD2 with
      elements := fun i => if i = 1 then ((0 : Nat), 1) else hD2.elements i } : Heap_Id Nat)
    = LD2m
  rw [hD2_eq]
  rfl

/-! Claim theorems. -/

/-- C1: the claim says every swap performed by the heap updates
`id_to_pos` for both displaced ids, keeping index consistency after
every public call.  The code does the opposite: `swap` rewrites only the
`elements` array and never touches `id_to_pos` (first conjunct), and on
the concrete run push 2, push 1 the raise swap moves id 1 to slot 0 and
id 0 to slot 1 while `id_to_pos` still holds its junk contents (all 0),
so index consistency fails. -/
theorem C1_swap_leaves_id_to_pos_untouched :
    (∀ (β : Type) [LinearOrder β] (h : Heap_Id β) (a b : Nat),
        (h.swap a b).id_to_pos = h.id_to_pos) ∧
    hB2.nb_elem = 2 ∧ (hB2.elements 0).2 = 1 ∧ (hB2.elements 1).2 = 0 ∧
      hB2.id_to_pos 0 = 0 ∧ ¬ indexConsistent hB2 := by
  refine ⟨fun β _ h a b => rfl, ?_⟩
  rw [hB2_eq]
  exact ⟨rfl, rfl, rfl, rfl, by decide⟩

/-- C2: the claim says heap order holds after any sequence of push and
pop calls.  Counterexample run: push 1, push 2, push 3, then one pop.
The pop moves the last node (3) to the root and, because the source
guards `lower` with `nb_elem > 2` after the decrement, never lowers it,
leaving the array [3, 2] in which the root exceeds its left son. -/
theorem C2_pop_breaks_heap_order :
    (hA3.pop).2.nb_elem = 2 ∧ ((hA3.pop).2.elements 0).1 = 3 ∧
      ((hA3.pop).2.elements 1).1 = 2 ∧ ¬ heapOrdered (hA3.pop).2 := by
  rw [hA3_eq, popA1_eq]
  exact ⟨rfl, rfl, rfl, by decide⟩

/-- C3: the claim says push takes a free id from `id_free`, records the
slot in `id_to_pos` and returns the id.  The code never reads `id_free`
and never writes `id_to_pos` (first conjunct, for every heap and every
value), and on a fresh heap whose junk `id_to_pos` memory holds 7, after
push 5 the live id 0 still maps to 7 instead of its slot 0.  (The source
`push` also contains no return statement despite its `unsigned int`
return type, so no id reaches the caller.) -/
theorem C3_push_bypasses_id_bookkeeping :
    (∀ (β : Type) [LinearOrder β] (h : Heap_Id β) (v : β),
        (h.push v).id_free = h.id_free ∧ (h.push v).id_to_pos = h.id_to_pos) ∧
    hC3.nb_elem = 1 ∧ hC3.elements 0 = (5, 0) ∧ hC3.id_to_pos 0 = 7 ∧
      ¬ hC3.id_to_pos ((hC3.elements 0).2) = 0 := by
  refine ⟨fun β _ h v => ⟨push_id_free h v, push_id_to_pos h v⟩, rfl, rfl, rfl, by decide⟩

/-- C4: the claim says repeated pops yield the pushed values in
non-decreasing order.  Counterexample run: push 1, push 2, push 3, then
three pops return 1, 3, 2 — the skipped lowering after the first pop
leaves 3 at the root ahead of 2. -/
theorem C4_pop_values_out_of_order :
    (hA3.pop).1 = 1 ∧ ((hA3.pop).2.pop).1 = 3 ∧ (((hA3.pop).2.pop).2.pop).1 = 2 ∧
      ¬ ((hA3.pop).2.pop).1 ≤ (((hA3.pop).2.pop).2.pop).1 := by
  simp only [hA3_eq, popA1_eq, popA2_eq]
  decide

/-- C5: the claim says reposition restores heap order around a mutated
element and fails with InvalidId on a dead id.  The code body is empty:
reposition is the identity on every heap and every id, live or dead
(first conjunct).  Concretely, after push 5, push 10 and an external
mutation of the id-1 value from 10 to 0, reposition 1 leaves the root
slot holding id 0 with value 5 (so a slot-0 peek does not return id 1)
and the heap out of order. -/
theorem C5_reposition_left_unimplemented :
    (∀ (β : Type) [LinearOrder β] (h : Heap_Id β) (i : Nat), h.reposition i = h) ∧
    (hD2m.reposition 1).elements 0 = (5, 0) ∧ (hD2m.reposition 1).elements 1 = (0, 1) ∧
      ((hD2m.reposition 1).elements 0).2 = 0 ∧ ¬ heapOrdered (hD2m.reposition 1) := by
  refine ⟨fun β _ h i => rfl, ?_⟩
  show hD2m.elements 0 = (5, 0) ∧ hD2m.elements 1 = (0, 1) ∧
    (hD2m.elements 0).2 = 0 ∧ ¬ heapOrdered hD2m
  rw [hD2m_eq]
  exact ⟨rfl, rfl, rfl, by decide⟩

/-- C6: the claim says push on a full heap is rejected with HeapFull
and mutates nothing.  The code performs no capacity check: push always
increments `nb_elem` (first conjunct, for every heap), and pushing a
second value into a capacity-1 heap drives `nb_elem` to 2, past
`capacity`. -/
theorem C6_push_at_capacity_still_inserts :
    (∀ (β : Type) [LinearOrder β] (h : Heap_Id β) (v : β),
        (h.push v).nb_elem = h.nb_elem + 1) ∧
    hC6.capacity = 1 ∧ hC6.nb_elem = 2 ∧ ¬ hC6.nb_elem ≤ hC6.capacity := by
  have hcap : hC6.capacity = 1 := by simp [hC6, Heap_Id.new]
  have hnb : hC6.nb_elem = 2 := by simp [hC6, Heap_Id.new]
  exact ⟨fun β _ h v => push_nb_elem h v, hcap, hnb, by rw [hcap, hnb]; decide⟩

/-- C7: the claim says pop on an empty heap fails with HeapEmpty and
leaves the heap unchanged.  The code has no emptiness guard: `nb_elem`
is decremented unconditionally in unsigned arithmetic (first conjunct),
so popping a fresh empty heap returns the junk element at slot 0 and
wraps `nb_elem` to 2^32 - 1, far beyond the capacity of 2. -/
theorem C7_pop_on_empty_wraps_count :
    (∀ (β : Type) [LinearOrder β] (h : Heap_Id β),
        (h.pop).2.nb_elem = (h.nb_elem + (W - 1)) % W) ∧
    (hC7.pop).1 = 9 ∧ (hC7.pop).2.nb_elem = 4294967295 ∧
      ¬ (hC7.pop).2.nb_elem ≤ (hC7.pop).2.capacity := by
  refine ⟨fun β _ h => pop_nb_elem h, rfl, ?_, ?_⟩
  · rw [pop_nb_elem]
    decide
  · rw [pop_nb_elem, pop_capacity]
    decide

/-- C8: the claim says construction rejects capacity 0 with
InvalidCapacity and initialises `id_free` to hold all capacity ids.
The code constructor accepts every capacity, including 0, and leaves
`id_free` holding whatever the uninitialised allocation contained
(first conjunct); with junk memory holding 7 everywhere, the capacity-3
heap starts with `id_free 0 = 7`, which is not even a valid id. -/
theorem C8_ctor_unchecked_and_uninitialised :
    (∀ (cap : Nat) (je : Nat → Nat × Nat) (jp jf : Nat → Nat),
        (Heap_Id.new cap je jp jf).nb_elem = 0 ∧
          (Heap_Id.new cap je jp jf).capacity = cap ∧
          (Heap_Id.new cap je jp jf).id_free = jf) ∧
    (Heap_Id.new 0 jel zf zf).capacity = 0 ∧
      (Heap_Id.new 3 jel zf sevens).id_free 0 = 7 ∧
      ¬ (Heap_Id.new 3 jel zf sevens).id_free 0 < (Heap_Id.new 3 jel zf sevens).capacity :=
  ⟨fun cap je jp jf => ⟨rfl, rfl, rfl⟩, rfl, rfl, by decide⟩

/-- C9: the sift-down step policy of `lower`, as the claim states it.
First: sons at or past `nb_elem` are never candidates — from a position
whose left son index reaches `nb_elem`, `lower` does nothing.  Second
and third: a node whose only live son is a left son at `nb_elem - 1` is
still compared against that son, and swapped exactly when the son is
strictly smaller.  Fourth and fifth: with both sons live and some son
smaller, the node is swapped with the smaller of the two sons,
preferring the left son when left ≤ right (on ties the left node, id
included, is the one that arrives at the vacated position). -/
theorem C9_sift_down_step_policy :
    (∀ (β : Type) [LinearOrder β] (h : Heap_Id β) (pos : Nat),
        1 ≤ h.nb_elem → h.nb_elem ≤ get_pos_left_son pos → h.lower pos = h) ∧
    (∀ (β : Type) [LinearOrder β] (h : Heap_Id β) (pos : Nat),
        h.nb_elem = get_pos_left_son pos + 1 →
        (h.elements (get_pos_left_son pos)).1 < (h.elements pos).1 →
        h.lower pos = h.swap pos (get_pos_left_son pos)) ∧
    (∀ (β : Type) [LinearOrder β] (h : Heap_Id β) (pos : Nat),
        h.nb_elem = get_pos_left_son pos + 1 →
        ¬ (h.elements (get_pos_left_son pos)).1 < (h.elements pos).1 →
        h.lower pos = h) ∧
    (∀ (β : Type) [LinearOrder β] (h : Heap_Id β) (pos : Nat),
        get_pos_right_son pos < h.nb_elem →
        (h.elements (get_pos_left_son pos)).1 ≤ (h.elements (get_pos_right_son pos)).1 →
        (h.elements (get_pos_left_son pos)).1 < (h.elements pos).1 →
        (h.lower pos).elements pos = h.elements (get_pos_left_son pos)) ∧
    (∀ (β : Type) [LinearOrder β] (h : Heap_Id β) (pos : Nat),
        get_pos_right_son pos < h.nb_elem →
        (h.elements (get_pos_right_son pos)).1 < (h.elements (get_pos_left_son pos)).1 →
        (h.elements (get_pos_right_son pos)).1 < (h.elements pos).1 →
        (h.lower pos).elements pos = h.elements (get_pos_right_son pos)) := by
  refine ⟨?_, ?_, ?_, ?_, ?_⟩
  · intro β _ h pos h1 h2
    refine lower_stop h pos ?_ ?_
    · intro hc
      obtain ⟨hc1, hc2, -⟩ := hc
      simp only [get_pos_left_son, get_pos_right_son] at h2 hc1 hc2
      omega
    · intro ht
      obtain ⟨ht1, -⟩ := ht
      simp only [get_pos_left_son] at h2 ht1
      omega
  · intro β _ h pos hn hlt
    refine lower_tail_swap h pos ?_ ?_
    · intro hc
      obtain ⟨hc1, -, -⟩ := hc
      simp only [get_pos_left_son, get_pos_right_son] at hn hc1
      omega
    · refine ⟨by simp only [get_pos_left_son] at *; omega, ?_⟩
      simp only [Heap_Id.lt, decide_eq_true_eq]
      exact hlt
  · intro β _ h pos hn hge
    refine lower_stop h pos ?_ ?_
    · intro hc
      obtain ⟨hc1, -, -⟩ := hc
      simp only [get_pos_left_son, get_pos_right_son] at hn hc1
      omega
    · intro ht
      obtain ⟨-, ht2⟩ := ht
      simp only [Heap_Id.lt, decide_eq_true_eq] at ht2
      exact hge ht2
  · intro β _ h pos hr hle hlt
    have hlr : get_pos_left_son pos < h.nb_elem := by
      simp only [get_pos_left_son, get_pos_right_son] at hr ⊢
      omega
    rw [lower_step_left h pos ⟨hr, hlr, Or.inl hlt⟩
        (by simp only [Heap_Id.le, decide_eq_true_eq]; exact hle)]
    rw [lower_elements_below _ _ pos (by simp only [get_pos_left_son]; omega)]
    simp only [Heap_Id.swap]
    rw [if_neg (by simp only [get_pos_left_son]; omega), if_pos trivial]
  · intro β _ h pos hr hlt2 hlt
    have hlr : get_pos_left_son pos < h.nb_elem := by
      simp only [get_pos_left_son, get_pos_right_son] at hr ⊢
      omega
    rw [lower_step_right h pos ⟨hr, hlr, Or.inr hlt⟩
        (by simp only [Heap_Id.le, decide_eq_true_eq, not_le]; exact hlt2)]
    rw [lower_elements_below _ _ pos (by simp only [get_pos_right_son]; omega)]
    simp only [Heap_Id.swap]
    rw [if_neg (by simp only [get_pos_right_son]; omega), if_pos trivial]

/-- C9 witness: the only-left-son case at a concrete heap — root 5,
lone left son 3 at index `nb_elem - 1 = 1`; `lower 0` performs exactly
the swap. -/
theorem C9_sift_down_step_policy_witness :
    (hW9.nb_elem = get_pos_left_son 0 + 1 ∧
      (hW9.elements (get_pos_left_son 0)).1 < (hW9.elements 0).1) ∧
    hW9.lower 0 = hW9.swap 0 (get_pos_left_son 0) :=
  ⟨⟨by decide, by decide⟩,
    C9_sift_down_step_policy.2.1 Nat hW9 0 (by decide) (by decide)⟩

/-- C10 counterexample: after push 1, push 2, pop, the third successful
push (index 2 counting from 0) stamps id `nb_elem = 1`, not 2 — and id
1 is now duplicated across both live slots. -/
theorem C10_counterexample_third_push_id :
    (hC10.elements 1).2 = 1 ∧ (hC10.elements 0).2 = 1 ∧ (hC10.elements 1).1 = 3 ∧
      ¬ (hC10.elements 1).2 = 2 := by
  rw [hC10_eq]
  exact ⟨rfl, rfl, rfl, by decide⟩

/-- C10 amended: the id stamped by push equals the element count
`nb_elem` at the moment of insertion (so the n-th push records id n only
in pop-free runs), push never consults the free-id pool, and pop never
returns an id to it. -/
theorem C10_amended_push_id_is_count_at_insertion :
    (∀ (β : Type) [LinearOrder β] (h : Heap_Id β) (v : β),
        (h.push v).nb_elem = h.nb_elem + 1 ∧
        (∃ j, j ≤ h.nb_elem ∧ (h.push v).elements j = (v, h.nb_elem)) ∧
        (h.push v).id_free = h.id_free) ∧
    (∀ (β : Type) [LinearOrder β] (h : Heap_Id β), (h.pop).2.id_free = h.id_free) := by
  refine ⟨fun β _ h v => ⟨push_nb_elem h v, ?_, push_id_free h v⟩, fun β _ h => pop_id_free h⟩
  by_cases he : h.is_empty
  · refine ⟨h.nb_elem, le_refl _, ?_⟩
    rw [Heap_Id.push, if_pos he]
    simp
  · obtain ⟨j, hj, hje⟩ := raise_moves_up
      ({ h with elements := fun i => if i = h.nb_elem then (v, h.nb_elem) else h.elements i })
      h.nb_elem
    refine ⟨j, hj, ?_⟩
    rw [Heap_Id.push, if_neg he]
    dsimp only
    rw [hje]
    simp
